import Mathlib

/-!
Verification of the VMS Activity Summary pipeline (src/app.py).

The Python program is embedded shallowly: strings are Lean `String`s
(a wrapper around `List Char`), Python string primitives (`lower`,
`strip`, `rstrip`, `split`, substring `in`, slicing) are modelled as
executable functions on the underlying character lists, and the pandas
DataFrame holding the VMS reference table is modelled as a list of rows
carrying the two columns the program reads (`vms_category_name`,
`vms_subcategory`).  The fallible `iloc[0]` access makes `auto_decide`
return an `Option`.
-/

namespace VMS

/-! ## Python string primitives -/

/-- ASCII lowercase table, used to model Python `str.lower`. -/
def lowerPairs : List (Char × Char) :=
  [('A', 'a'), ('B', 'b'), ('C', 'c'), ('D', 'd'), ('E', 'e'), ('F', 'f'),
   ('G', 'g'), ('H', 'h'), ('I', 'i'), ('J', 'j'), ('K', 'k'), ('L', 'l'),
   ('M', 'm'), ('N', 'n'), ('O', 'o'), ('P', 'p'), ('Q', 'q'), ('R', 'r'),
   ('S', 's'), ('T', 't'), ('U', 'u'), ('V', 'v'), ('W', 'w'), ('X', 'x'),
   ('Y', 'y'), ('Z', 'z')]

/-- Lowercase one character (models Python `str.lower` per character). -/
def lowerChar (c : Char) : Char :=
  match lowerPairs.find? (fun p => p.1 == c) with
  | some p => p.2
  | none => c

/-- Models Python `s.lower()`. -/
def pyLower (s : String) : String := ⟨s.data.map lowerChar⟩

/-- Whitespace characters recognised by Python `str.split()` / `str.strip()`. -/
def isWs (c : Char) : Bool := c == ' ' || c == '\t' || c == '\n' || c == '\r'

/-- Models Python `s.strip()`: drop leading and trailing whitespace. -/
def pyStrip (s : String) : String :=
  ⟨((s.data.dropWhile isWs).reverse.dropWhile isWs).reverse⟩

/-- Models Python `s.rstrip('.')`: drop every trailing period. -/
def rstripDots (s : String) : String :=
  ⟨(s.data.reverse.dropWhile (fun c => c == '.')).reverse⟩

/-- Characters stripped by the conjugator's `rstrip(',.')`. -/
def isPunct (c : Char) : Bool := c == ',' || c == '.'

/-- Models Python `s.rstrip(',.')`: drop every trailing comma or period. -/
def rstripPunct (s : String) : String :=
  ⟨(s.data.reverse.dropWhile isPunct).reverse⟩

/-- Is `n` a prefix of `h`?  (Helper for the substring test.) -/
def isPrefixList : List Char → List Char → Bool
  | [], _ => true
  | _ :: _, [] => false
  | a :: as, b :: bs => a == b && isPrefixList as bs

/-- Does `n` occur as a contiguous sublist of `h`? -/
def isSubList (n : List Char) : List Char → Bool
  | [] => n.isEmpty
  | h :: t => isPrefixList n (h :: t) || isSubList n t

/-- Models the Python substring test: does `needle` occur in `hay`? -/
def py_in (needle hay : String) : Bool := isSubList needle.data hay.data

/-- Models Python `s.endswith(suf)`. -/
def endsWithS (suf s : String) : Bool :=
  isPrefixList suf.data.reverse s.data.reverse

/-- Does the string end in a period? -/
def endsWithDot (s : String) : Bool :=
  match s.data.reverse with
  | c :: _ => c == '.'
  | [] => false

/-- Tokenizer accumulator for `pyWords`. -/
def pyWordsAux : List Char → List Char → List String
  | [], acc => if acc.isEmpty then [] else [⟨acc.reverse⟩]
  | c :: cs, acc =>
    if isWs c then
      if acc.isEmpty then pyWordsAux cs [] else ⟨acc.reverse⟩ :: pyWordsAux cs []
    else pyWordsAux cs (c :: acc)

/-- Models Python `s.split()`: split on whitespace runs, no empty tokens. -/
def pyWords (s : String) : List String := pyWordsAux s.data []

/-- Models Python `" ".join(ws)`. -/
def joinSpace : List String → String
  | [] => ""
  | [w] => w
  | w :: ws => w ++ " " ++ joinSpace ws

/-! ## Grammar helper (`conjugate_to_ing`, src/app.py lines 33-55) -/

/-- The fixed irregular-verb table of `conjugate_to_ing`. -/
def replacements : List (String × String) :=
  [("hosted", "hosting"), ("prepped", "prepping"), ("created", "creating"),
   ("pulled", "pulling"), ("cleared", "clearing"), ("led", "leading"),
   ("assisted", "assisting"), ("removed", "removing"),
   ("monitored", "monitoring"), ("attended", "attending"),
   ("presented", "presenting"), ("conducted", "conducting"),
   ("organized", "organizing"), ("taught", "teaching"), ("gave", "giving")]

/-- Stem computation of the `-ed` → `-ing` heuristic: drop the trailing
`"ed"` of the cleaned word; if the remaining stem ends in `'e'`, drop that
too (src/app.py lines 50-51). -/
def conjStem (cw : String) : List Char :=
  if (cw.data.take (cw.data.length - 2)).reverse.head? == some 'e' then
    (cw.data.take (cw.data.length - 2)).take ((cw.data.take (cw.data.length - 2)).length - 1)
  else cw.data.take (cw.data.length - 2)

/-- Per-token rewrite of `conjugate_to_ing`: lowercase, strip trailing
`,`/`.` for lookup, consult the irregular table, else the `-ed` → `-ing`
heuristic, else leave the token unchanged (src/app.py lines 44-54).  The
stripped punctuation (Python `word[len(clean_word):]`) is reattached. -/
def conjWord (word : String) : String :=
  match replacements.find? (fun p => p.1 == rstripPunct (pyLower word)) with
  | some p => ⟨p.2.data ++ word.data.drop (rstripPunct (pyLower word)).data.length⟩
  | none =>
    if endsWithS "ed" (rstripPunct (pyLower word)) &&
        decide ((rstripPunct (pyLower word)).data.length > 4) then
      ⟨conjStem (rstripPunct (pyLower word)) ++ "ing".data ++
        word.data.drop (rstripPunct (pyLower word)).data.length⟩
    else word

/-- Does `conjWord` rewrite this token (irregular-table hit or `-ed`
heuristic), as opposed to leaving it unchanged? -/
def rewrites (word : String) : Bool :=
  (replacements.find? (fun p => p.1 == rstripPunct (pyLower word))).isSome
  || (endsWithS "ed" (rstripPunct (pyLower word)) &&
      decide ((rstripPunct (pyLower word)).data.length > 4))

/-- Models `conjugate_to_ing(text)` (src/app.py lines 33-55). -/
def conjugate_to_ing (text : String) : String :=
  let words := pyWords text
  if words.isEmpty then text
  else joinSpace (words.map conjWord)

/-! ## Reference table (the loaded CSV, columns read by the program) -/

/-- One row of the VMS reference table; only the two columns `auto_decide`
reads are modelled. -/
structure Row where
  category : String
  subcategory : String
  deriving DecidableEq, Repr

/-! ## Partner and activity matching (`auto_decide`, src/app.py lines 75-142) -/

/-- The `partner_map` dictionary (src/app.py lines 83-100), in insertion
order, as scanned by the partner loop. -/
def partner_map : List (String × String) :=
  [("san antonio river", "San Antonio River Authority"),
   ("sara", "San Antonio River Authority"),
   ("river foundation", "San Antonio River Authority"),
   ("mitchell lake", "Mitchell Lake Audubon Center"),
   ("botanical garden", "San Antonio Botanical Garden"),
   ("bulverde oaks", "Bulverde Oaks Nature Preserve"),
   ("cibolo", "Cibolo Conservation Center"),
   ("government canyon", "Government Canyon"),
   ("guadalupe river", "Guadalupe River State Park"),
   ("headwaters", "Headwaters-Incarnate Word"),
   ("witte", "Witte Museum"),
   ("phil hardberger", "San Antonio Parks and Recreation"),
   ("friedrich", "San Antonio Parks and Recreation"),
   ("canyon gorge", "Canyon Gorge"),
   ("kendall county", "Kendall County Parks Partnership"),
   ("kronkosky", "Kronkosky State Natural Area")]

/-- The partner-identification loop (src/app.py lines 102-105): first
`partner_map` key occurring in the lowercased org/loc text wins, default
`"AAMN"`. -/
def findPartner (o_l : String) : String :=
  match partner_map.find? (fun p => py_in p.1 o_l) with
  | some p => p.2
  | none => "AAMN"

/-- Keyword groups of the classifier branch chain (src/app.py 111-128). -/
def chapterKw : List String := ["board", "committee", "admin", "meeting", "reporting hours"]

/-- Advanced-training keyword group (src/app.py line 113). -/
def trainingKw : List String := ["webinar", "lecture", "training", "workshop", "tmn tuesday"]

/-- Public-outreach keyword group (src/app.py line 117). -/
def outreachKw : List String := ["outreach", "booth", "presentation", "public", "students", "tour", "guide", "class"]

/-- Invasives keyword group (src/app.py line 119). -/
def invasiveKw : List String := ["invasive", "weed", "privet", "chinaberry"]

/-- Trail/maintenance keyword group (src/app.py line 121). -/
def trailKw : List String := ["trail", "maintenance", "clearing", "trash", "litter", "cleanup"]

/-- Field-research keyword group (src/app.py line 124). -/
def surveyKw : List String := ["survey", "monitoring", "bird count", "inaturalist"]

/-- Planting/restoration keyword group (src/app.py line 127). -/
def plantingKw : List String := ["planting", "restore", "restoration"]

/-- Models Python `any(word in t for word in kws)`. -/
def containsAny (t : String) (kws : List String) : Bool :=
  kws.any (fun k => py_in k t)

/-- Outcome of the base-activity branch chain: the advanced-training group
returns from `auto_decide` immediately (src/app.py line 116); every other
group falls through to the partner/subcategory chain. -/
inductive BaseResult where
  | early (category subcategory : String)
  | viaChain (category base_activity : String)
  deriving DecidableEq, Repr

/-- The ordered if/elif branch chain determining category and base
activity from the lowercased task text (src/app.py lines 108-128). -/
def decide_base (t : String) : BaseResult :=
  if containsAny t chapterKw then
    .viaChain "Chapter Business" "Chapter Business"
  else if containsAny t trainingKw then
    .early "Advanced Training" (if py_in "tmn tuesday" t then "TMN Tuesday" else "Presentations")
  else if containsAny t outreachKw then
    .viaChain "Public Outreach" "Public Outreach"
  else if containsAny t invasiveKw then
    .viaChain "Resource Management" "Invasives"
  else if containsAny t trailKw then
    if py_in "trail" t then .viaChain "Nature/Public Access" "Access Nature"
    else .viaChain "Resource Management" "Trash Removal"
  else if containsAny t surveyKw then
    .viaChain "Field Research" (if py_in "inaturalist" t then "iNaturalist Observations" else "Field Research")
  else if containsAny t plantingKw then
    .viaChain "Resource Management" "Habitat Restore"
  else
    .viaChain "Other" "Other"

/-- Does a row with this `vms_subcategory` exist in the table?  Models the
non-emptiness of `df[df['vms_subcategory'] == s]` (src/app.py 134, 138). -/
def subEx (df : List Row) (s : String) : Bool :=
  !(df.filter (fun r => r.subcategory == s)).isEmpty

/-- First `vms_subcategory` of the rows of a category: models
`df[df['vms_category_name'] == c]['vms_subcategory'].iloc[0]`, which is
fallible when the category has no rows (src/app.py line 140). -/
def firstSubOf (df : List Row) (c : String) : Option String :=
  ((df.filter (fun r => r.category == c)).head?).map Row.subcategory

/-- The subcategory construction and validation chain of `auto_decide`
(src/app.py lines 130-142): try `"{base} – {partner}"`, then
`"{base} – AAMN"`, then the first row of the category. -/
def resolve_sub (df : List Row) (category base_activity partner : String) :
    Option (String × String) :=
  if (df.filter (fun r => r.subcategory == base_activity ++ " – " ++ partner)).isEmpty then
    if (df.filter (fun r => r.subcategory == base_activity ++ " – AAMN")).isEmpty then
      (firstSubOf df category).map (fun s => (category, s))
    else some (category, base_activity ++ " – AAMN")
  else some (category, base_activity ++ " – " ++ partner)

/-- Models `auto_decide(task_text, org_text, loc_text)` (src/app.py lines
75-142).  `none` corresponds to the `iloc[0]` access raising on a category
with no rows. -/
def auto_decide (df : List Row) (task_text org_text loc_text : String) :
    Option (String × String) :=
  if task_text = "" then some ("Other", "Other – AAMN")
  else
    match decide_base (pyLower task_text) with
    | .early c s => some (c, s)
    | .viaChain c b =>
      resolve_sub df c b (findPartner (pyLower (org_text ++ " " ++ loc_text)))

/-! ## Selection resolution (module level, src/app.py lines 149-156) -/

/-- Models Python `lst.index(x)` (index of the first equal element). -/
def py_index (x : String) : List String → Nat
  | [] => 0
  | y :: ys => if y = x then 0 else py_index x ys + 1

/-- Models the module-level index resolution pattern
`lst.index(suggested) if suggested in lst else 0` used for `cat_index`
(line 150) and `sub_index` (line 155). -/
def resolve_index (suggested : String) (valid : List String) : Nat :=
  if suggested ∈ valid then py_index suggested valid else 0

/-! ## Narrative generator (`generate_narrative`, src/app.py lines 159-176) -/

/-- Models Python `s[:2].isupper()` on the first two characters: true when
some character is alphabetic and every alphabetic character is uppercase. -/
def py_isupper (l : List Char) : Bool :=
  l.any Char.isAlpha && l.all (fun c => !c.isAlpha || c.isUpper)

/-- The task-text cleanup `task.strip().rstrip('.')` performed by
`generate_narrative` before conjugation (src/app.py line 161). -/
def strip_task (task : String) : String := rstripDots (pyStrip task)

/-- Models `generate_narrative(cat, sub, task, org, loc)` (src/app.py
lines 159-176). -/
def generate_narrative (cat sub task org loc : String) : String :=
  if task = "" then ""
  else
    let cn0 := conjugate_to_ing (strip_task task)
    let clean_notes :=
      match cn0.data with
      | [] => cn0
      | c :: cs => if py_isupper ((c :: cs).take 2) then cn0 else ⟨lowerChar c :: cs⟩
    let org_str := if org = "" then "the AAMN chapter" else org
    let loc_str := if loc = "" then "" else " at " ++ loc
    if cat = "Advanced Training" then
      "I attended an advanced training session regarding " ++ sub ++
        " provided by " ++ org_str ++ loc_str ++ ". The session involved " ++
        clean_notes ++ "."
    else if cat = "Public Outreach" then
      "Representing the Master Naturalist program" ++ loc_str ++
        ", I engaged in public outreach with " ++ org_str ++ " by " ++
        clean_notes ++ "."
    else if cat = "Field Research" then
      "I contributed to citizen science and research efforts for " ++ sub ++
        loc_str ++ " by " ++ clean_notes ++ "."
    else if cat = "Nature/Public Access" ∨ py_in "Resource Management" cat = true then
      "I provided habitat restoration and trail maintenance service for " ++
        sub ++ loc_str ++ " with " ++ org_str ++ " by " ++ clean_notes ++ "."
    else
      "I provided volunteer service for " ++ sub ++ " in coordination with " ++
        org_str ++ loc_str ++ " by " ++ clean_notes ++ "."

/-! ## Helper lemmas -/

theorem head?_dropWhile_false (p : Char → Bool) (l : List Char) (c : Char)
    (h : (l.dropWhile p).head? = some c) : p c = false := by
  have hm := List.head?_dropWhile_not p l
  rw [h] at hm
  exact hm

theorem dropWhile_cons_false (p : Char → Bool) (l : List Char) (c : Char)
    (rest : List Char) (h : l.dropWhile p = c :: rest) : p c = false := by
  have hm := List.head?_dropWhile_not p l
  rw [h] at hm
  exact hm

theorem lowerChar_idem (c : Char) : lowerChar (lowerChar c) = lowerChar c := by
  cases hf : lowerPairs.find? (fun p => p.1 == c) with
  | none =>
    have hc : lowerChar c = c := by unfold lowerChar; rw [hf]
    rw [hc, hc]
  | some p =>
    have hp : lowerChar c = p.2 := by unfold lowerChar; rw [hf]
    have hmem : p ∈ lowerPairs := List.mem_of_find?_eq_some hf
    rw [hp]
    fin_cases hmem <;> decide

theorem lowerChar_punct {c : Char} (h : isPunct (lowerChar c) = true) :
    isPunct c = true := by
  cases hf : lowerPairs.find? (fun p => p.1 == c) with
  | none =>
    have hc : lowerChar c = c := by unfold lowerChar; rw [hf]
    rwa [hc] at h
  | some p =>
    have hp : lowerChar c = p.2 := by unfold lowerChar; rw [hf]
    rw [hp] at h
    have hmem : p ∈ lowerPairs := List.mem_of_find?_eq_some hf
    exfalso
    fin_cases hmem <;> exact absurd h (by decide)

theorem lowerChar_fix_punct {c : Char} (h : isPunct c = true) : lowerChar c = c := by
  have hc : c = ',' ∨ c = '.' := by
    simpa [isPunct, Bool.or_eq_true, beq_iff_eq] using h
  rcases hc with rfl | rfl <;> decide

theorem map_lowerChar_self {l : List Char} (h : ∀ c ∈ l, lowerChar c = c) :
    l.map lowerChar = l := by
  induction l with
  | nil => rfl
  | cons x xs ih =>
    simp only [List.map_cons]
    rw [h x (by simp), ih (fun c hc => h c (by simp [hc]))]

theorem py_index_get? (s : String) :
    ∀ l : List String, s ∈ l → l.get? (py_index s l) = some s := by
  intro l
  induction l with
  | nil => intro h; cases h
  | cons y ys ih =>
    intro h
    by_cases hy : y = s
    · subst hy; simp [py_index]
    · rcases List.mem_cons.mp h with rfl | h'
      · exact absurd rfl hy
      · rw [py_index, if_neg hy]
        simpa using ih h'

theorem py_index_lt (s : String) :
    ∀ (l : List String) (j : Nat), j < py_index s l → l.get? j ≠ some s := by
  intro l
  induction l with
  | nil => intro j h; simp [py_index] at h
  | cons y ys ih =>
    intro j h
    by_cases hy : y = s
    · rw [py_index, if_pos hy] at h; exact absurd h (Nat.not_lt_zero j)
    · rw [py_index, if_neg hy] at h
      cases j with
      | zero =>
        simp only [List.get?_cons_zero, ne_eq, Option.some.injEq]
        exact hy
      | succ j =>
        simp only [List.get?_cons_succ]
        exact ih j (Nat.lt_of_succ_lt_succ h)

/-! ## Claim theorems -/

/-- C3: the selection resolver returns the exact (first) index of the
suggested value when it is an element of the valid list — the returned
index points at the suggested value and no earlier index does — and
returns `0` when the suggestion is absent (including the empty
suggestion), the silent default-to-first recovery for a subcategory that
does not exist under the resolved category. -/
theorem resolve_index_spec (s : String) (l : List String) :
    (s ∈ l → l.get? (resolve_index s l) = some s ∧
      ∀ j, j < resolve_index s l → l.get? j ≠ some s) ∧
    (s ∉ l → resolve_index s l = 0) := by
  constructor
  · intro hs
    rw [resolve_index, if_pos hs]
    exact ⟨py_index_get? s l hs, fun j hj => py_index_lt s l j hj⟩
  · intro hs
    rw [resolve_index, if_neg hs]

/-- Witness for C3: the resolver finds "Beta" at index 1 of a concrete
valid-values list. -/
theorem resolve_index_spec_witness :
    ["Alpha", "Beta"].get? (resolve_index "Beta" ["Alpha", "Beta"]) = some "Beta" :=
  ((resolve_index_spec "Beta" ["Alpha", "Beta"]).1 (by decide)).1

/-- C4: rendering with empty task text returns the empty string for every
category, subcategory, organization and location (no exception, no
partial sentence). -/
theorem generate_narrative_empty_task (cat sub org loc : String) :
    generate_narrative cat sub "" org loc = "" := rfl

/-- C9: for empty (falsy) task text, `auto_decide` returns exactly
`("Other", "Other – AAMN")` for every reference table — even one with no
such row — and every organization/location text: the literal pair is
returned immediately, with no table lookup and no fallback chain. -/
theorem auto_decide_empty_task (df : List Row) (org loc : String) :
    auto_decide df "" org loc = some ("Other", "Other – AAMN") := rfl

/-- C7: applying the verb conjugator to a string consisting of one key of
the irregular-verb table alone returns exactly the key's mapped gerund
value, with no extra characters appended. -/
theorem conjugate_to_ing_irregular (k v : String) (h : (k, v) ∈ replacements) :
    conjugate_to_ing k = v := by
  fin_cases h <;> rfl

/-- Witness for C7 at the table entry `("hosted", "hosting")`. -/
theorem conjugate_to_ing_irregular_witness : conjugate_to_ing "hosted" = "hosting" :=
  conjugate_to_ing_irregular "hosted" "hosting" (by decide)

/-- C6: the Advanced Training example renders exactly the expected
sentence: it begins with "I attended an advanced training session
regarding Presentations provided by the AAMN chapter." (the organization
defaults to "the AAMN chapter" when empty) and contains no " at "
location clause (the empty location is omitted entirely). -/
theorem generate_narrative_training_example :
    generate_narrative "Advanced Training" "Presentations"
        "attended a workshop on pollinators" "" "" =
      "I attended an advanced training session regarding Presentations provided by the AAMN chapter. The session involved attending a workshop on pollinators." ∧
    isPrefixList "I attended an advanced training session regarding Presentations provided by the AAMN chapter.".data
      (generate_narrative "Advanced Training" "Presentations"
        "attended a workshop on pollinators" "" "").data = true ∧
    py_in " at " (generate_narrative "Advanced Training" "Presentations"
        "attended a workshop on pollinators" "" "") = false := by
  refine ⟨by decide, by decide, by decide⟩

theorem resolve_sub_fst {df : List Row} {c b pa : String} {p : String × String}
    (h : resolve_sub df c b pa = some p) : p.1 = c := by
  unfold resolve_sub at h
  split at h
  · split at h
    · cases hh : firstSubOf df c with
      | none => rw [hh] at h; simp at h
      | some s =>
        rw [hh] at h
        simp only [Option.map_some', Option.some.injEq] at h
        rw [← h]
    · injection h with h2
      subst h2
      rfl
  · injection h with h2
    subst h2
    rfl

theorem resolve_sub_isSome {df : List Row} {c b pa : String}
    (h : (df.filter (fun r => r.category == c)).isEmpty = false) :
    (resolve_sub df c b pa).isSome = true := by
  unfold resolve_sub
  split
  · split
    · unfold firstSubOf
      cases hh : df.filter (fun r => r.category == c) with
      | nil => rw [hh] at h; simp at h
      | cons r rs => simp
    · simp
  · simp

/-- C1: whenever the lowercased task text contains a chapter-business
keyword ('board', 'committee', 'admin', 'meeting', 'reporting hours'),
`auto_decide` assigns category "Chapter Business" — regardless of any
lower-priority keyword also occurring in the text, since the ordered
branch chain is evaluated top to bottom and the first matching group
wins; and a result is produced whenever the table has a Chapter Business
row. -/
theorem auto_decide_chapter_business (df : List Row) (task org loc : String)
    (h : containsAny (pyLower task) chapterKw = true) :
    (∀ p : String × String, auto_decide df task org loc = some p →
        p.1 = "Chapter Business") ∧
    ((df.filter (fun r => r.category == "Chapter Business")).isEmpty = false →
      (auto_decide df task org loc).isSome = true) := by
  have ht : ¬ task = "" := by
    intro ht
    subst ht
    exact absurd h (by decide)
  have hb : decide_base (pyLower task) =
      BaseResult.viaChain "Chapter Business" "Chapter Business" := by
    unfold decide_base
    rw [h]
    rfl
  have key : auto_decide df task org loc =
      resolve_sub df "Chapter Business" "Chapter Business"
        (findPartner (pyLower (org ++ " " ++ loc))) := by
    unfold auto_decide
    rw [if_neg ht, hb]
  constructor
  · intro p hp
    rw [key] at hp
    exact resolve_sub_fst hp
  · intro hcat
    rw [key]
    exact resolve_sub_isSome hcat

/-- Witness for C1: "board meeting notes" against a one-row table
produces a classification (whose category C1 then pins down). -/
theorem auto_decide_chapter_business_witness :
    (auto_decide [⟨"Chapter Business", "Chapter Business – AAMN"⟩]
        "board meeting notes" "" "").isSome = true :=
  (auto_decide_chapter_business [⟨"Chapter Business", "Chapter Business – AAMN"⟩]
    "board meeting notes" "" "" (by decide)).2 (by decide)

/-- C5 counterexample: "Tmn Tuesday meeting" contains "tmn tuesday" in
lowercase, yet `auto_decide` classifies it as Chapter Business (the
higher-priority group matched by "meeting"), not Advanced Training / TMN
Tuesday. -/
theorem auto_decide_tmn_priority_counterexample :
    py_in "tmn tuesday" (pyLower "Tmn Tuesday meeting") = true ∧
    auto_decide [⟨"Chapter Business", "Chapter Business – AAMN"⟩]
        "Tmn Tuesday meeting" "" "" =
      some ("Chapter Business", "Chapter Business – AAMN") ∧
    auto_decide [⟨"Chapter Business", "Chapter Business – AAMN"⟩]
        "Tmn Tuesday meeting" "" "" ≠
      some ("Advanced Training", "TMN Tuesday") := by
  refine ⟨by decide, by decide, by decide⟩

/-- C5 (amended): for all task text whose lowercased form contains
"tmn tuesday" AND no chapter-business keyword, `auto_decide` returns
category "Advanced Training" with subcategory "TMN Tuesday", not the
group's generic default "Presentations". -/
theorem auto_decide_tmn_tuesday (df : List Row) (task org loc : String)
    (h1 : py_in "tmn tuesday" (pyLower task) = true)
    (h2 : containsAny (pyLower task) chapterKw = false) :
    auto_decide df task org loc = some ("Advanced Training", "TMN Tuesday") := by
  have ht : ¬ task = "" := by
    intro ht
    subst ht
    exact absurd h1 (by decide)
  have h3 : containsAny (pyLower task) trainingKw = true := by
    unfold containsAny
    exact List.any_eq_true.mpr ⟨"tmn tuesday", by decide, h1⟩
  have hb : decide_base (pyLower task) =
      BaseResult.early "Advanced Training" "TMN Tuesday" := by
    unfold decide_base
    rw [h2, h3, h1]
    rfl
  unfold auto_decide
  rw [if_neg ht, hb]

/-- Witness for C5 (amended) at concrete inputs: the phrase alone,
classified against the empty table (the early return consults no table). -/
theorem auto_decide_tmn_tuesday_witness :
    auto_decide [] "tmn tuesday" "" "" = some ("Advanced Training", "TMN Tuesday") :=
  auto_decide_tmn_tuesday [] "tmn tuesday" "" "" (by decide) (by decide)

/-- C2: for non-empty task text classified by a group that does not
return early, `auto_decide` produces the subcategory by the three-level
fallback chain, tried in order — (a) the partner-qualified name, (b) the
base activity qualified with "AAMN", (c) the first subcategory row of the
resolved category — and, when the resolved category has at least one row,
the chain always produces a value. -/
theorem auto_decide_fallback_chain (df : List Row) (task org loc c b : String)
    (ht : task ≠ "")
    (hb : decide_base (pyLower task) = BaseResult.viaChain c b)
    (hc : (df.filter (fun r => r.category == c)).isEmpty = false) :
    ∃ sub : String,
      auto_decide df task org loc = some (c, sub) ∧
      (subEx df (b ++ " – " ++ findPartner (pyLower (org ++ " " ++ loc))) = true →
        sub = b ++ " – " ++ findPartner (pyLower (org ++ " " ++ loc))) ∧
      (subEx df (b ++ " – " ++ findPartner (pyLower (org ++ " " ++ loc))) = false →
        subEx df (b ++ " – AAMN") = true → sub = b ++ " – AAMN") ∧
      (subEx df (b ++ " – " ++ findPartner (pyLower (org ++ " " ++ loc))) = false →
        subEx df (b ++ " – AAMN") = false → firstSubOf df c = some sub) := by
  have key : auto_decide df task org loc =
      resolve_sub df c b (findPartner (pyLower (org ++ " " ++ loc))) := by
    unfold auto_decide
    rw [if_neg ht, hb]
  set pa := findPartner (pyLower (org ++ " " ++ loc)) with hpa
  cases h1 : (df.filter (fun r => r.subcategory == b ++ " – " ++ pa)).isEmpty with
  | false =>
    refine ⟨b ++ " – " ++ pa, ?_, fun _ => rfl, ?_, ?_⟩
    · rw [key]; unfold resolve_sub; rw [h1]; rfl
    · intro hfalse _
      unfold subEx at hfalse
      rw [h1] at hfalse
      simp at hfalse
    · intro hfalse _
      unfold subEx at hfalse
      rw [h1] at hfalse
      simp at hfalse
  | true =>
    cases h2 : (df.filter (fun r => r.subcategory == b ++ " – AAMN")).isEmpty with
    | false =>
      refine ⟨b ++ " – AAMN", ?_, ?_, fun _ _ => rfl, ?_⟩
      · rw [key]; unfold resolve_sub; rw [h1, h2]; rfl
      · intro htrue
        unfold subEx at htrue
        rw [h1] at htrue
        simp at htrue
      · intro _ hfalse
        unfold subEx at hfalse
        rw [h2] at hfalse
        simp at hfalse
    | true =>
      cases hh : df.filter (fun r => r.category == c) with
      | nil => rw [hh] at hc; simp at hc
      | cons r rs =>
        refine ⟨r.subcategory, ?_, ?_, ?_, fun _ _ => ?_⟩
        · rw [key]
          unfold resolve_sub
          rw [h1, h2]
          unfold firstSubOf
          rw [hh]
          rfl
        · intro htrue
          unfold subEx at htrue
          rw [h1] at htrue
          simp at htrue
        · intro _ htrue
          unfold subEx at htrue
          rw [h2] at htrue
          simp at htrue
        · unfold firstSubOf
          rw [hh]
          rfl

/-- Witness for C2: with a one-row table lacking the partner-qualified
row, the chain falls back to the "– AAMN" tier and produces a value. -/
theorem auto_decide_fallback_chain_witness :
    auto_decide [⟨"Resource Management", "Invasives – AAMN"⟩] "pulled weeds"
        "San Antonio River Foundation" "" =
      some ("Resource Management", "Invasives – AAMN") := by
  obtain ⟨sub, hmain, -, h2, -⟩ :=
    auto_decide_fallback_chain [⟨"Resource Management", "Invasives – AAMN"⟩]
      "pulled weeds" "San Antonio River Foundation" "" "Resource Management"
      "Invasives" (by decide) (by decide) (by decide)
  rw [hmain, h2 (by decide) (by decide)]
  decide

/-- C8 counterexample: a task text ending in three periods renders with
NO period left in the embedded clause ("by helping.", not "by
helping..."): the preprocessing removes every trailing period, not all
but one. -/
theorem generate_narrative_periods_counterexample :
    generate_narrative "Other" "Sub" "helped..." "" "" =
      "I provided volunteer service for Sub in coordination with the AAMN chapter by helping." ∧
    py_in "helping.." (generate_narrative "Other" "Sub" "helped..." "" "") = false := by
  refine ⟨by decide, by decide⟩

theorem endsWithDot_rstripDots (s : String) :
    endsWithDot (rstripDots s) = false := by
  unfold rstripDots endsWithDot
  have hrr : (String.mk ((s.data.reverse.dropWhile (fun c => c == '.')).reverse)).data.reverse
      = s.data.reverse.dropWhile (fun c => c == '.') := List.reverse_reverse _
  rw [hrr]
  cases hd : s.data.reverse.dropWhile (fun c => c == '.') with
  | nil => rfl
  | cons c rest => exact dropWhile_cons_false _ _ _ _ hd

/-- C8 (amended): the renderer's preprocessing strips leading/trailing
whitespace and ALL trailing periods from the task text before
conjugation: the cleaned task text never ends in a period, so a task
text ending in several periods keeps none of them in the rendered
sentence's embedded task clause. -/
theorem strip_task_no_trailing_period (task : String) :
    endsWithDot (strip_task task) = false :=
  endsWithDot_rstripDots (pyStrip task)

theorem pyLower_fix_of_chars {l : List Char} (h : ∀ c ∈ l, lowerChar c = c) :
    pyLower ⟨l⟩ = ⟨l⟩ :=
  congrArg String.mk (map_lowerChar_self h)

theorem lower_fix_of_mem_clean {l : List Char} {c : Char}
    (hc : c ∈ ((l.map lowerChar).reverse.dropWhile isPunct).reverse) :
    lowerChar c = c := by
  rw [List.mem_reverse] at hc
  have hc2 : c ∈ (l.map lowerChar).reverse := List.dropWhile_subset isPunct hc
  rw [List.mem_reverse] at hc2
  obtain ⟨x, hx, hxc⟩ := List.mem_map.mp hc2
  rw [← hxc]
  exact lowerChar_idem x

theorem punct_of_mem_tail {l : List Char} {c : Char}
    (hc : c ∈ l.drop (((l.map lowerChar).reverse.dropWhile isPunct).reverse).length) :
    isPunct c = true := by
  have hsplit : l.map lowerChar =
      ((l.map lowerChar).reverse.dropWhile isPunct).reverse ++
        ((l.map lowerChar).reverse.takeWhile isPunct).reverse := by
    conv_lhs => rw [← List.reverse_reverse (l.map lowerChar),
      ← List.takeWhile_append_dropWhile isPunct (l.map lowerChar).reverse,
      List.reverse_append]
  have hdrop : (l.map lowerChar).drop
        (((l.map lowerChar).reverse.dropWhile isPunct).reverse).length =
      ((l.map lowerChar).reverse.takeWhile isPunct).reverse := by
    have hcg := congrArg
      (fun x => x.drop (((l.map lowerChar).reverse.dropWhile isPunct).reverse).length)
      hsplit
    simp only at hcg
    rw [List.drop_left] at hcg
    exact hcg
  have h1 : lowerChar c ∈
      (l.drop (((l.map lowerChar).reverse.dropWhile isPunct).reverse).length).map
        lowerChar :=
    List.mem_map_of_mem lowerChar hc
  rw [List.map_drop, hdrop, List.mem_reverse] at h1
  exact lowerChar_punct (List.mem_takeWhile_imp h1)

theorem conjStem_subset (cw : String) (c : Char) (h : c ∈ conjStem cw) :
    c ∈ cw.data := by
  unfold conjStem at h
  split at h
  · exact List.take_subset _ _ (List.take_subset _ _ h)
  · exact List.take_subset _ _ h

/-- C10: every token the verb conjugator rewrites — via the irregular
table or the -ed→-ing heuristic — is emitted fully lowercased (applying
the lowercasing map to the output token is the identity), because the
table lookup and the stem are computed from the lowercased token; a
token the conjugator does not rewrite is returned unchanged, keeping its
original capitalization. -/
theorem conjWord_lowercases_rewritten (word : String) :
    (rewrites word = true → pyLower (conjWord word) = conjWord word) ∧
    (rewrites word = false → conjWord word = word) := by
  have hA : ∀ c ∈ (rstripPunct (pyLower word)).data, lowerChar c = c :=
    fun c hc => lower_fix_of_mem_clean hc
  have hB : ∀ c ∈ word.data.drop (rstripPunct (pyLower word)).data.length,
      isPunct c = true :=
    fun c hc => punct_of_mem_tail hc
  constructor
  · intro hr
    unfold conjWord
    split
    · rename_i p hf
      have hp : p ∈ replacements := List.mem_of_find?_eq_some hf
      refine pyLower_fix_of_chars ?_
      intro c hc
      rcases List.mem_append.mp hc with hc1 | hc2
      · fin_cases hp <;> (fin_cases hc1 <;> decide)
      · exact lowerChar_fix_punct (hB c hc2)
    · rename_i hf
      split
      · refine pyLower_fix_of_chars ?_
        intro c hc
        rcases List.mem_append.mp hc with hc1 | hc2
        · rcases List.mem_append.mp hc1 with hs | hi
          · exact hA c (conjStem_subset _ _ hs)
          · fin_cases hi <;> decide
        · exact lowerChar_fix_punct (hB c hc2)
      · rename_i hcond
        exfalso
        unfold rewrites at hr
        rw [hf] at hr
        simp only [Option.isSome_none, Bool.false_or] at hr
        exact hcond hr
  · intro hr
    unfold rewrites at hr
    unfold conjWord
    split
    · rename_i p hf
      rw [hf] at hr
      simp at hr
    · rename_i hf
      rw [hf] at hr
      simp only [Option.isSome_none, Bool.false_or] at hr
      split
      · rename_i hcond
        rw [hr] at hcond
        exact absurd hcond (by decide)
      · rfl

/-- Witness for C10: the token "Led" is rewritten to the fully lowercased
"leading" — lowercasing the output is the identity on it. -/
theorem conjWord_lowercases_rewritten_witness :
    pyLower (conjWord "Led") = conjWord "Led" ∧ conjWord "Led" = "leading" :=
  ⟨(conjWord_lowercases_rewritten "Led").1 (by decide), by decide⟩

end VMS
